import Mathlib

/-!
Shallow embedding of `src/app/services/resumeio.py` (class `ResumeioDownloader`):
identifier validation (`__post_init__`), URL formatting, metadata handling, and the
two PDF generation pipelines (`_generate_pdf` and `_generate_pdf_searchable`).

Conventions of the embedding:
* Python floats are modelled as `ℚ` (exact real arithmetic on the values the code
  manipulates);
* the HTTP client (`requests.get`), the OCR engine (`pytesseract` + `pypdf`) and the
  remote metadata response are explicit oracle parameters;
* the on-disk transient file `/files/file.png` is an explicit boolean piece of state
  (present / absent);
* Python exceptions are modelled by `Except PyError`.
-/

/-- Raw image bytes, as returned by `requests.get(image_url).content`. -/
abbrev Bytes := List Nat

/-- One link rectangle of a page's metadata: `{left, top, width, height, url}`,
expressed in the viewport coordinate space, top-left origin, y increasing downward. -/
structure Link where
  left : ℚ
  top : ℚ
  width : ℚ
  height : ℚ
  url : String
deriving DecidableEq

/-- A page's declared viewport `{width, height}` (dict iteration order: width, height,
as consumed by `w, h = ....get("viewport").values()`). -/
structure Viewport where
  width : ℚ
  height : ℚ
deriving DecidableEq

/-- One entry of the `pages` array of the remote metadata JSON. -/
structure PageMeta where
  viewport : Viewport
  links : List Link
deriving DecidableEq

/-- The failure kinds the Python code can surface:
* `httpException` — raised explicitly by `__post_init__` (status 400);
* `jsonDecodeError` — `json.loads` on a non-JSON body;
* `typeError` — `len(None)` in `_format_images_urls` when the JSON had no `pages`;
* `indexError` — list subscript out of range (`metadata[0]`, `metadata[i]`);
* `zeroDivisionError` — `target_h/h` or `target_w/w` with a zero OCR dimension;
* `fileNotFoundError` — `os.remove` on an absent path;
* `assetFetchFailure` — a failed page-image HTTP fetch (spec §7 name);
* `textExtractionFailure` — OCR produced no usable one-page PDF (spec §7 name). -/
inductive PyError where
  | httpException (status : Nat) (detail : String)
  | jsonDecodeError
  | typeError
  | indexError
  | zeroDivisionError
  | fileNotFoundError
  | assetFetchFailure
  | textExtractionFailure
deriving DecidableEq

/-- Line 121 of `_generate_pdf_searchable`:
`scale_factor = min(target_h/h, target_w/w)`. -/
def scale_factor (target_w target_h w h : ℚ) : ℚ :=
  min (target_h / h) (target_w / w)

/-- C2: in searchable mode, for positive OCR source dimensions `(w, h)` and target
viewport `(tw, th)`, the computed scale factor is `min (th / h) (tw / w)`, and uniform
scaling by it keeps the page inside the target viewport (`w·s ≤ tw`, `h·s ≤ th`) with
equality on at least one axis. -/
theorem c2_scale_factor_fits_inside (tw th w h : ℚ) (hw : 0 < w) (hh : 0 < h) :
    scale_factor tw th w h = min (th / h) (tw / w) ∧
    w * scale_factor tw th w h ≤ tw ∧
    h * scale_factor tw th w h ≤ th ∧
    (w * scale_factor tw th w h = tw ∨ h * scale_factor tw th w h = th) := by
  refine ⟨rfl, ?_, ?_, ?_⟩
  · calc w * scale_factor tw th w h ≤ w * (tw / w) :=
          mul_le_mul_of_nonneg_left (min_le_right _ _) hw.le
      _ = tw := by rw [mul_comm]; exact div_mul_cancel₀ tw hw.ne'
  · calc h * scale_factor tw th w h ≤ h * (th / h) :=
          mul_le_mul_of_nonneg_left (min_le_left _ _) hh.le
      _ = th := by rw [mul_comm]; exact div_mul_cancel₀ th hh.ne'
  · rcases min_choice (th / h) (tw / w) with hmin | hmin
    · right
      rw [scale_factor, hmin, mul_comm]
      exact div_mul_cancel₀ th hh.ne'
    · left
      rw [scale_factor, hmin, mul_comm]
      exact div_mul_cancel₀ tw hw.ne'

/-- C2 witness: the spec's worked example, source `(612 × 792)`, target `(500 × 700)`. -/
theorem c2_scale_factor_fits_inside_witness :
    scale_factor 500 700 612 792 = min (700 / 792 : ℚ) (500 / 612) ∧
    (612 : ℚ) * scale_factor 500 700 612 792 ≤ 500 ∧
    (792 : ℚ) * scale_factor 500 700 612 792 ≤ 700 ∧
    ((612 : ℚ) * scale_factor 500 700 612 792 = 500 ∨
      (792 : ℚ) * scale_factor 500 700 612 792 = 700) :=
  c2_scale_factor_fits_inside 500 700 612 792 (by norm_num) (by norm_num)

/-- Python's `[a-zA-Z0-9]` character class (ASCII letters and digits). -/
def isAlnum (c : Char) : Bool := c.isAlpha || c.isDigit

/-- Python semantics of `re.compile(r"^[a-zA-Z0-9]{9}$").search(s)` being a match
(line 49): with no MULTILINE flag, `^` anchors at position 0 and `$` matches at the
end of the string or just before one trailing newline, so the pattern matches exactly
the 9-character alphanumeric strings and those followed by a single final newline. -/
def patternIdMatches (s : List Char) : Bool :=
  (s.length == 9 && s.all isAlnum) ||
  (s.length == 10 && (s.take 9).all isAlnum && s.getLast? == some '\x0a')

/-- The lookbehind of `re.compile(r"(?<=resume.io/r/)([a-zA-Z0-9]){9}")` (line 50),
checked at offset `p`: twelve characters `resume`, ANY character (the dot is an
unescaped wildcard), then `io/r/`. -/
def urlPrefixAt (s : List Char) (p : Nat) : Bool :=
  match (s.drop p).take 12 with
  | [c0, c1, c2, c3, c4, c5, _, c7, c8, c9, c10, c11] =>
      c0 == 'r' && c1 == 'e' && c2 == 's' && c3 == 'u' && c4 == 'm' && c5 == 'e' &&
      c7 == 'i' && c8 == 'o' && c9 == '/' && c10 == 'r' && c11 == '/'
  | _ => false

/-- The URL pattern matches at position `q` (start of the 9-character group): the
lookbehind needs 12 characters before `q`, and 9 alphanumeric characters from `q`. -/
def patternUrlMatchAt (s : List Char) (q : Nat) : Bool :=
  12 ≤ q && urlPrefixAt s (q - 12) &&
  ((s.drop q).take 9).length == 9 && ((s.drop q).take 9).all isAlnum

/-- `pattern_url.search(self.resume_id)` (lines 50, 55–56): the leftmost match, whose
`group(0)` is the 9-character token. -/
def patternUrlSearch (s : List Char) : Option (List Char) :=
  ((List.range s.length).find? (patternUrlMatchAt s)).map (fun q => (s.drop q).take 9)

/-- `__post_init__` (lines 47–59): keep the input unchanged when the bare pattern
matches; otherwise replace it by the URL-embedded token; otherwise raise
`HTTPException(400, "Invalid resume id: ...")`. -/
def postInit (resume_id : String) : Except PyError String :=
  if patternIdMatches resume_id.toList then .ok resume_id
  else
    match patternUrlSearch resume_id.toList with
    | some tok => .ok (String.mk tok)
    | none => .error (.httpException 400 ("Invalid resume id: " ++ resume_id))

/-- Modelled from the spec's words for C5 (refinement target, not from the source):
construction is accepted exactly when the input IS a 9-character alphanumeric token,
or CONTAINS one immediately following the literal URL path segment `resume.io/r/`. -/
def specAccepts (s : String) : Bool :=
  (s.toList.length == 9 && s.toList.all isAlnum) ||
  (List.range s.toList.length).any (fun p =>
    ((s.toList.drop p).take 12 == "resume.io/r/".toList) &&
    ((s.toList.drop (p + 12)).take 9).length == 9 &&
    ((s.toList.drop (p + 12)).take 9).all isAlnum)

/-- C5 counterexample: `"resume0io/r/abcdefghi"` contains no literal `resume.io/r/`
and is not a bare 9-character token, so per the claim construction must fail; but the
unescaped dot in the compiled pattern lets the code accept it and return
`"abcdefghi"`. -/
theorem c5_wildcard_dot_accepts_nonliteral :
    postInit "resume0io/r/abcdefghi" = .ok "abcdefghi" ∧
    specAccepts "resume0io/r/abcdefghi" = false := by
  constructor
  · rfl
  · rfl

/-- Propositional reading of a `^[a-zA-Z0-9]{9}$` match under Python `re.search`
semantics: a 9-character alphanumeric string, or one followed by a single trailing
newline. -/
def pyIdAccepts (s : String) : Prop :=
  (s.toList.length = 9 ∧ ∀ c ∈ s.toList, isAlnum c = true) ∨
  (s.toList.length = 10 ∧ (∀ c ∈ s.toList.take 9, isAlnum c = true) ∧
    s.toList.getLast? = some '\x0a')

/-- Propositional reading of a `(?<=resume.io/r/)([a-zA-Z0-9]){9}` match starting at
offset `q` of `s`. -/
def pyUrlMatchProp (s : List Char) (q : Nat) : Prop :=
  12 ≤ q ∧ q + 9 ≤ s.length ∧ urlPrefixAt s (q - 12) = true ∧
    ∀ c ∈ (s.drop q).take 9, isAlnum c = true

theorem patternIdMatches_iff (s : String) :
    patternIdMatches s.toList = true ↔ pyIdAccepts s := by
  unfold patternIdMatches pyIdAccepts
  simp [List.all_eq_true]
  tauto

theorem patternUrlMatchAt_iff (s : List Char) (q : Nat) :
    patternUrlMatchAt s q = true ↔ pyUrlMatchProp s q := by
  unfold patternUrlMatchAt pyUrlMatchProp
  simp only [Bool.and_eq_true, decide_eq_true_eq, List.all_eq_true, List.length_take,
    List.length_drop, beq_iff_eq]
  constructor
  · rintro ⟨⟨⟨h12, hpre⟩, hlen⟩, hal⟩
    exact ⟨h12, by omega, hpre, hal⟩
  · rintro ⟨h12, hlen, hpre, hal⟩
    exact ⟨⟨⟨h12, hpre⟩, by omega⟩, hal⟩

theorem patternUrlSearch_isSome_iff (s : List Char) :
    (patternUrlSearch s).isSome ↔ ∃ q, pyUrlMatchProp s q := by
  unfold patternUrlSearch
  rw [Option.isSome_map', List.find?_isSome]
  constructor
  · rintro ⟨q, _, hq⟩
    exact ⟨q, (patternUrlMatchAt_iff s q).1 hq⟩
  · rintro ⟨q, hq⟩
    refine ⟨q, List.mem_range.2 ?_, (patternUrlMatchAt_iff s q).2 hq⟩
    have := hq.2.1
    omega

theorem patternUrlSearch_eq_some (s : List Char) (tok : List Char)
    (h : patternUrlSearch s = some tok) :
    ∃ q, pyUrlMatchProp s q ∧ tok = (s.drop q).take 9 := by
  unfold patternUrlSearch at h
  rcases Option.map_eq_some'.1 h with ⟨q, hfind, htok⟩
  exact ⟨q, (patternUrlMatchAt_iff s q).1 (List.find?_some hfind), htok.symm⟩

/-- C5 amended: construction succeeds exactly when the input matches
`^[a-zA-Z0-9]{9}$` under Python semantics (then the identifier is the input,
unchanged) or the wildcard-dot URL pattern `(?<=resume.io/r/)([a-zA-Z0-9]){9}`
matches somewhere (then the identifier is such a matched 9-character token);
for every other input, construction fails with an HTTP 400 error carrying the
offending input. -/
theorem c5_postInit_characterization (s : String) :
    ((∃ t, postInit s = .ok t) ↔ (pyIdAccepts s ∨ ∃ q, pyUrlMatchProp s.toList q)) ∧
    (pyIdAccepts s → postInit s = .ok s) ∧
    (∀ t, postInit s = .ok t → ¬ pyIdAccepts s →
      ∃ q, pyUrlMatchProp s.toList q ∧ t = String.mk ((s.toList.drop q).take 9)) ∧
    (¬ (pyIdAccepts s ∨ ∃ q, pyUrlMatchProp s.toList q) →
      postInit s = .error (.httpException 400 ("Invalid resume id: " ++ s))) := by
  by_cases hid : patternIdMatches s.toList = true
  · have hacc : pyIdAccepts s := (patternIdMatches_iff s).1 hid
    have hok : postInit s = .ok s := by
      unfold postInit
      rw [if_pos hid]
    refine ⟨⟨fun _ => Or.inl hacc, fun _ => ⟨s, hok⟩⟩, fun _ => hok,
      fun t _ hn => absurd hacc hn, fun hn => absurd (Or.inl hacc) hn⟩
  · have hnacc : ¬ pyIdAccepts s := fun hacc => hid ((patternIdMatches_iff s).2 hacc)
    rcases hfind : patternUrlSearch s.toList with _ | tok
    · have hnone : ∀ q, ¬ pyUrlMatchProp s.toList q := by
        intro q hq
        have : (patternUrlSearch s.toList).isSome :=
          (patternUrlSearch_isSome_iff s.toList).2 ⟨q, hq⟩
        rw [hfind] at this
        exact Bool.noConfusion this
      have herr : postInit s = .error (.httpException 400 ("Invalid resume id: " ++ s)) := by
        unfold postInit
        rw [if_neg hid, hfind]
      refine ⟨⟨?_, ?_⟩, fun hacc => absurd hacc hnacc, ?_, fun _ => herr⟩
      · rintro ⟨t, ht⟩
        rw [herr] at ht
        exact Except.noConfusion ht
      · rintro (hacc | ⟨q, hq⟩)
        · exact absurd hacc hnacc
        · exact absurd hq (hnone q)
      · intro t ht
        rw [herr] at ht
        exact Except.noConfusion ht
    · have hok : postInit s = .ok (String.mk tok) := by
        unfold postInit
        rw [if_neg hid, hfind]
      rcases patternUrlSearch_eq_some s.toList tok hfind with ⟨q, hq, htok⟩
      refine ⟨⟨fun _ => Or.inr ⟨q, hq⟩, fun _ => ⟨String.mk tok, hok⟩⟩,
        fun hacc => absurd hacc hnacc, ?_, fun hn => absurd (Or.inr ⟨q, hq⟩) hn⟩
      intro t ht _
      rw [hok] at ht
      exact ⟨q, hq, by cases ht; rw [htok]⟩

/-- C5 amended witness: the bare token `"abc123XYZ"` is accepted unchanged, and the
URL form `"https://resume.io/r/abc123XYZ"` is normalized to the bare token. -/
theorem c5_postInit_characterization_witness :
    postInit "abc123XYZ" = .ok "abc123XYZ" ∧
    postInit "https://resume.io/r/abc123XYZ" = .ok "abc123XYZ" := by
  constructor
  · exact (c5_postInit_characterization "abc123XYZ").2.1 (by unfold pyIdAccepts; decide)
  · rfl

/-- Per-instance state of the `ResumeioDownloader` dataclass (lines 34–40). -/
structure DownloaderState where
  resume_id : String
  extension : String
  image_size : Nat
  cache_date : String
  images_urls : List String
deriving DecidableEq

/-- `METADATA_URL.format(resume_id=..., cache_date=...)` (line 45). -/
def METADATA_URL (resume_id cache_date : String) : String :=
  "https://ssr.resume.tools/meta/ssid-" ++ resume_id ++ "?cache=" ++ cache_date

/-- `IMAGE_URL.format(...)` (lines 42–44). -/
def IMAGE_URL (resume_id : String) (page_id : Nat) (extension cache_date : String)
    (image_size : Nat) : String :=
  "https://ssr.resume.tools/to-image/ssid-" ++ resume_id ++ "-" ++ toString page_id ++
    "." ++ extension ++ "?cache=" ++ cache_date ++ "&size=" ++ toString image_size

/-- Dataclass construction (lines 34–59). Python evaluates the field default
`cache_date: str = datetime.utcnow().isoformat()[:-4] + "Z"` ONCE, when the class
statement executes at module import; every construction afterwards reuses that value,
so the clock reading available at construction time (`constructionTime`) is never
consulted. `__post_init__` then validates and normalizes `resume_id`. -/
def mkResumeioDownloader (moduleLoadTime constructionTime resumeId : String) :
    Except PyError DownloaderState :=
  match postInit resumeId with
  | .error e => .error e
  | .ok rid => .ok ⟨rid, "png", 1800, moduleLoadTime, []⟩

/-- C6 evidence: the cache token is NOT captured at construction time — two
constructions at distinct wall-clock times, in a process whose module was imported at
a third, earlier time, both carry the module-import timestamp as `cache_date`. -/
theorem c6_cache_date_fixed_at_class_load :
    (mkResumeioDownloader "2024-01-01T00:00:00Z" "2024-06-15T08:30:00Z"
        "abc123XYZ").map (fun st => st.cache_date) = .ok "2024-01-01T00:00:00Z" ∧
    (mkResumeioDownloader "2024-01-01T00:00:00Z" "2024-06-16T19:45:00Z"
        "abc123XYZ").map (fun st => st.cache_date) = .ok "2024-01-01T00:00:00Z" ∧
    ("2024-06-15T08:30:00Z" : String) ≠ "2024-06-16T19:45:00Z" ∧
    ("2024-06-15T08:30:00Z" : String) ≠ "2024-01-01T00:00:00Z" := by
  refine ⟨rfl, rfl, by decide, by decide⟩

/-- `_format_images_urls` (lines 87–97): append one URL per metadata page (1-based
page ids) to the instance list `self.images_urls`, never clearing it. -/
def formatImagesUrls (st : DownloaderState) (metadata : List PageMeta) : DownloaderState :=
  { st with
    images_urls := st.images_urls ++
      (List.range metadata.length).map (fun k =>
        IMAGE_URL st.resume_id (k + 1) st.extension st.cache_date st.image_size) }

/-- A link placed by `pdf.link(x=..., y=..., w=..., h=..., link=...)` (line 166). -/
structure PlacedLink where
  x : ℚ
  y : ℚ
  w : ℚ
  h : ℚ
  url : String
deriving DecidableEq

/-- One page of the FPDF document built by `_generate_pdf`: the (uniform) page
format, the image drawn stretched over it, and the placed links. -/
structure FpdfPage where
  width : ℚ
  height : ℚ
  image : Bytes
  links : List PlacedLink
deriving DecidableEq

/-- Lines 162–166: place one page's metadata links with the vertical coordinate
flipped, `x = link["left"]`, `y = h - link["top"]`. -/
def placeLinksPlain (h : ℚ) (links : List Link) : List PlacedLink :=
  links.map (fun l => ⟨l.left, h - l.top, l.width, l.height, l.url⟩)

/-- Loop of `_generate_pdf` (lines 158–166), iterating over `self.images_urls` with
running index `i`: fetch and draw the image (a failed fetch aborts the run), then
read `self.metadata[i]` (IndexError when `i` is out of range) and place its links.
The second component counts attempted image fetches. -/
def generatePdfAux (fetch : String → Option Bytes) (metadata : List PageMeta)
    (w h : ℚ) : List String → Nat → Except PyError (List FpdfPage) × Nat
  | [], _ => (.ok [], 0)
  | u :: rest, i =>
    match fetch u with
    | none => (.error .assetFetchFailure, 1)
    | some img =>
      match metadata[i]? with
      | none => (.error .indexError, 1)
      | some mi =>
        match generatePdfAux fetch metadata w h rest (i + 1) with
        | (.ok tail, n) => (.ok (⟨w, h, img, placeLinksPlain h mi.links⟩ :: tail), n + 1)
        | (.error e, n) => (.error e, n + 1)

/-- `_generate_pdf` (lines 151–167): the page format is read once from
`self.metadata[0]` (IndexError on empty metadata) and reused for every page. -/
def generatePdf (fetch : String → Option Bytes) (metadata : List PageMeta)
    (imagesUrls : List String) : Except PyError (List FpdfPage) × Nat :=
  match metadata with
  | [] => (.error .indexError, 0)
  | m0 :: _ =>
      generatePdfAux fetch metadata m0.viewport.width m0.viewport.height imagesUrls 0

/-- The page of the one-page PDF produced by
`PdfReader(BytesIO(pytesseract.image_to_pdf_or_hocr(...))).pages[0]`: only its
mediabox dimensions matter downstream. -/
structure OcrPage where
  width : ℚ
  height : ℚ
deriving DecidableEq

/-- A clickable region appended via `AnnotationBuilder.link(rect=(x0, y0, x1, y1),
url=...)` (lines 136–139). -/
structure Annot where
  x0 : ℚ
  y0 : ℚ
  x1 : ℚ
  y1 : ℚ
  url : String
deriving DecidableEq

/-- One page held by the `PdfWriter`: the scaled OCR page dimensions and the regions
that `add_annotation(page_number=i, ...)` attached to it. -/
structure WriterPage where
  width : ℚ
  height : ℚ
  annots : List Annot
deriving DecidableEq

/-- `writer.add_annotation(page_number=i, annotation=a)` (line 141): append `a` to
the annotation list of writer page `i` (the call sites only use indices in range). -/
def addLinkAt (pages : List WriterPage) (i : Nat) (a : Annot) : List WriterPage :=
  match pages[i]? with
  | none => pages
  | some p => pages.set i { p with annots := p.annots ++ [a] }

/-- The region built from one metadata link, with NO vertical flip (lines 133–138):
`rect = (x, y, x + link["width"], y + link["height"])` for `x = left`, `y = top`. -/
def annotOfLink (l : Link) : Annot :=
  ⟨l.left, l.top, l.left + l.width, l.top + l.height, l.url⟩

/-- The inner `for link in self.metadata[i].get("links")` loop (lines 132–141). -/
def addLinksFor (pages : List WriterPage) (i : Nat) (links : List Link) : List WriterPage :=
  links.foldl (fun ps l => addLinkAt ps i (annotOfLink l)) pages

deriving instance DecidableEq for Except

/-- Outcome of `_generate_pdf_searchable`: the writer pages (or the surfaced Python
exception), the number of attempted image fetches, and whether `/files/file.png` is
present on disk afterwards. -/
structure SearchOut where
  result : Except PyError (List WriterPage)
  fetches : Nat
  fileOnDisk : Bool
deriving DecidableEq

/-- Loop of `_generate_pdf_searchable` (lines 103–141), per url at running index `i`:
fetch the raster (abort on failure), write it to `/files/file.png`, OCR it (abort on
failure, file left on disk), compute the scale factor (ZeroDivisionError on a zero
OCR dimension), append the scaled page, then read `self.metadata[i]` (IndexError when
out of range) and attach its links to writer page `i`. -/
def searchableAux (fetch : String → Option Bytes) (ocr : Bytes → Option OcrPage)
    (metadata : List PageMeta) (target_w target_h : ℚ) :
    List String → Nat → Bool → List WriterPage → SearchOut
  | [], _, fileEx, pages => ⟨.ok pages, 0, fileEx⟩
  | u :: rest, i, fileEx, pages =>
    match fetch u with
    | none => ⟨.error .assetFetchFailure, 1, fileEx⟩
    | some img =>
      match ocr img with
      | none => ⟨.error .textExtractionFailure, 1, true⟩
      | some p =>
        if p.height = 0 ∨ p.width = 0 then ⟨.error .zeroDivisionError, 1, true⟩
        else
          let s := scale_factor target_w target_h p.width p.height
          match metadata[i]? with
          | none => ⟨.error .indexError, 1, true⟩
          | some mi =>
            let pages' := addLinksFor (pages ++ [⟨p.width * s, p.height * s, []⟩]) i mi.links
            match searchableAux fetch ocr metadata target_w target_h rest (i + 1) true pages' with
            | ⟨r, n, fe⟩ => ⟨r, n + 1, fe⟩

/-- `_generate_pdf_searchable` (lines 100–147): target size from `metadata[0]`
(IndexError on empty metadata), the per-page loop, then a single
`os.remove('/files/file.png')` AFTER the whole loop (FileNotFoundError if nothing was
ever written there). -/
def generatePdfSearchable (fetch : String → Option Bytes) (ocr : Bytes → Option OcrPage)
    (metadata : List PageMeta) (imagesUrls : List String) (fileEx : Bool) : SearchOut :=
  match metadata with
  | [] => ⟨.error .indexError, 0, fileEx⟩
  | m0 :: _ =>
    match searchableAux fetch ocr metadata m0.viewport.width m0.viewport.height
        imagesUrls 0 fileEx [] with
    | ⟨.ok pages, n, fe⟩ =>
        if fe then ⟨.ok pages, n, false⟩ else ⟨.error .fileNotFoundError, n, fe⟩
    | ⟨.error e, n, fe⟩ => ⟨.error e, n, fe⟩

/-- The two buffer shapes `run` can return (`pdf.output(dest="S")` respectively
`writer.write(file)`). -/
inductive Buffer where
  | plain (pages : List FpdfPage)
  | searchable (pages : List WriterPage)
deriving DecidableEq

/-- Observable outcome of one `run` call. -/
structure RunOutcome where
  result : Except PyError Buffer
  state : DownloaderState
  imageFetches : Nat
  fileOnDisk : Bool
deriving DecidableEq

/-- `run` (lines 61–78) with the collaborators explicit:
* `metaResp` models the body of the metadata GET (the HTTP status is never
  inspected): `none` = not well-formed JSON (`json.loads` raises JSONDecodeError),
  `some none` = JSON without a `pages` field (`.get("pages")` yields `None`, and
  `len(None)` in `_format_images_urls` then raises TypeError), `some (some md)` = a
  proper `pages` list;
* `fetch` and `ocr` model the per-page image GET and the OCR engine;
* `st` is the instance state — `images_urls` persists across calls;
* `fileEx` is whether `/files/file.png` already exists. -/
def run (searchable : Bool) (metaResp : Option (Option (List PageMeta)))
    (fetch : String → Option Bytes) (ocr : Bytes → Option OcrPage)
    (st : DownloaderState) (fileEx : Bool) : RunOutcome :=
  match metaResp with
  | none => ⟨.error .jsonDecodeError, st, 0, fileEx⟩
  | some none => ⟨.error .typeError, st, 0, fileEx⟩
  | some (some metadata) =>
    let st' := formatImagesUrls st metadata
    if searchable then
      match generatePdfSearchable fetch ocr metadata st'.images_urls fileEx with
      | ⟨.ok pages, n, fe⟩ => ⟨.ok (.searchable pages), st', n, fe⟩
      | ⟨.error e, n, fe⟩ => ⟨.error e, st', n, fe⟩
    else
      match generatePdf fetch metadata st'.images_urls with
      | (.ok pages, n) => ⟨.ok (.plain pages), st', n, fileEx⟩
      | (.error e, n) => ⟨.error e, st', n, fileEx⟩

/-- Page count of a returned buffer. -/
def pageCount : Except PyError Buffer → Option Nat
  | .ok (.plain pages) => some pages.length
  | .ok (.searchable pages) => some pages.length
  | .error _ => none

theorem formatImagesUrls_length (st : DownloaderState) (md : List PageMeta) :
    (formatImagesUrls st md).images_urls.length = st.images_urls.length + md.length := by
  simp [formatImagesUrls]

/-- Whatever the generation phase does, a run that got a proper `pages` list leaves
the instance with `formatImagesUrls st md` as its state. -/
theorem run_state (searchable : Bool) (md : List PageMeta)
    (fetch : String → Option Bytes) (ocr : Bytes → Option OcrPage)
    (st : DownloaderState) (fileEx : Bool) :
    (run searchable (some (some md)) fetch ocr st fileEx).state = formatImagesUrls st md := by
  cases searchable with
  | true =>
    cases hgen : generatePdfSearchable fetch ocr md (formatImagesUrls st md).images_urls fileEx with
    | mk res n fe => cases res <;> simp [run, hgen]
  | false =>
    cases hgen : generatePdf fetch md (formatImagesUrls st md).images_urls with
    | mk res n => cases res <;> simp [run, hgen]

/-- Success shape of the `_generate_pdf` loop: with a total image fetcher and enough
metadata entries, it returns one page per url, every page carrying the document
format `(w, h)` and the flipped links of its own metadata entry. -/
theorem generatePdfAux_ok (fetch : String → Option Bytes) (metadata : List PageMeta)
    (w h : ℚ) (hf : ∀ u, (fetch u).isSome) :
    ∀ (urls : List String) (i : Nat), i + urls.length ≤ metadata.length →
      ∃ pages : List FpdfPage,
        generatePdfAux fetch metadata w h urls i = (.ok pages, urls.length) ∧
        pages.length = urls.length ∧
        ∀ k, k < urls.length → ∀ mi, metadata[i + k]? = some mi →
          pages[k]?.map (fun p => (p.width, p.height, p.links))
            = some (w, h, placeLinksPlain h mi.links) := by
  intro urls
  induction urls with
  | nil =>
    intro i _
    exact ⟨[], rfl, rfl, fun k hk => absurd hk (Nat.not_lt_zero k)⟩
  | cons u rest ih =>
    intro i hlen
    rcases Option.isSome_iff_exists.1 (hf u) with ⟨img, himg⟩
    have hi : i < metadata.length := by
      simp only [List.length_cons] at hlen
      omega
    have hmi : metadata[i]? = some metadata[i] := List.getElem?_eq_getElem hi
    rcases ih (i + 1) (by simp only [List.length_cons] at hlen ⊢; omega) with
      ⟨tail, htail, htlen, htspec⟩
    refine ⟨⟨w, h, img, placeLinksPlain h metadata[i].links⟩ :: tail, ?_, ?_, ?_⟩
    · simp [generatePdfAux, himg, hmi, htail]
    · simp [htlen]
    · intro k hk mi hmi'
      cases k with
      | zero =>
        rw [Nat.add_zero] at hmi'
        rw [hmi] at hmi'
        cases hmi'
        simp
      | succ k' =>
        have harith : i + (k' + 1) = (i + 1) + k' := by omega
        rw [harith] at hmi'
        have := htspec k' (by simp only [List.length_cons] at hk; omega) mi hmi'
        simpa using this

/-- Failure shape of the `_generate_pdf` loop: with a total image fetcher, once the
urls outnumber the remaining metadata entries, the loop raises IndexError. -/
theorem generatePdfAux_oob (fetch : String → Option Bytes) (metadata : List PageMeta)
    (w h : ℚ) (hf : ∀ u, (fetch u).isSome) :
    ∀ (urls : List String) (i : Nat), i ≤ metadata.length →
      metadata.length < i + urls.length →
      (generatePdfAux fetch metadata w h urls i).1 = .error .indexError := by
  intro urls
  induction urls with
  | nil =>
    intro i hle hlt
    simp only [List.length_nil, Nat.add_zero] at hlt
    omega
  | cons u rest ih =>
    intro i hle hlt
    rcases Option.isSome_iff_exists.1 (hf u) with ⟨img, himg⟩
    by_cases hi : i < metadata.length
    · have hmi : metadata[i]? = some metadata[i] := List.getElem?_eq_getElem hi
      have hrec := ih (i + 1) (by omega)
        (by simp only [List.length_cons] at hlt; omega)
      cases hgen : generatePdfAux fetch metadata w h rest (i + 1) with
      | mk res n =>
        rw [hgen] at hrec
        simp only at hrec
        subst hrec
        simp [generatePdfAux, himg, hmi, hgen]
    · have hmi : metadata[i]? = none := List.getElem?_eq_none (by omega)
      simp [generatePdfAux, himg, hmi]

/-- Run-level success shape of a fresh plain-mode run: one output page per metadata
entry, all sized by `metadata[0]`'s viewport, each carrying its own entry's flipped
links. -/
theorem run_plain_fresh_ok (m0 : PageMeta) (mrest : List PageMeta)
    (fetch : String → Option Bytes) (ocr : Bytes → Option OcrPage)
    (st : DownloaderState) (fileEx : Bool)
    (hst : st.images_urls = []) (hf : ∀ u, (fetch u).isSome) :
    ∃ pages : List FpdfPage,
      (run false (some (some (m0 :: mrest))) fetch ocr st fileEx).result
        = .ok (.plain pages) ∧
      pages.length = (m0 :: mrest).length ∧
      ∀ k, k < (m0 :: mrest).length → ∀ mi, (m0 :: mrest)[k]? = some mi →
        pages[k]?.map (fun p => (p.width, p.height, p.links))
          = some (m0.viewport.width, m0.viewport.height,
              placeLinksPlain m0.viewport.height mi.links) := by
  have hurls : (formatImagesUrls st (m0 :: mrest)).images_urls.length
      = (m0 :: mrest).length := by
    rw [formatImagesUrls_length, hst]
    simp
  rcases generatePdfAux_ok fetch (m0 :: mrest) m0.viewport.width m0.viewport.height hf
      (formatImagesUrls st (m0 :: mrest)).images_urls 0 (by omega) with
    ⟨pages, hgen, hlen, hspec⟩
  have hgen' : generatePdf fetch (m0 :: mrest) (formatImagesUrls st (m0 :: mrest)).images_urls
      = (.ok pages, (formatImagesUrls st (m0 :: mrest)).images_urls.length) := by
    simpa [generatePdf] using hgen
  refine ⟨pages, ?_, ?_, ?_⟩
  · simp [run, hgen']
  · rw [hlen, hurls]
  · intro k hk mi hmi
    exact hspec k (by omega) mi (by simpa using hmi)

/-- Two-page metadata whose pages declare DIFFERENT viewports, for the C1
counterexample. -/
def mdTwoViewports : List PageMeta := [⟨⟨100, 200⟩, []⟩, ⟨⟨300, 400⟩, []⟩]

/-- C1 counterexample: in plain mode, with 2-page metadata whose second page declares
viewport `(300, 400)`, the second output page still has page 1's dimensions
`(100, 200)` — the code sizes every page from `metadata[0]`, not from each page's own
entry as the claim states. -/
theorem c1_second_page_keeps_first_viewport :
    (run false (some (some mdTwoViewports)) (fun _ => some [0]) (fun _ => none)
        ⟨"abc123XYZ", "png", 1800, "T", []⟩ false).result
      = .ok (.plain [⟨100, 200, [0], []⟩, ⟨100, 200, [0], []⟩]) ∧
    mdTwoViewports[1]?.map (fun m => (m.viewport.width, m.viewport.height))
      = some (300, 400) ∧
    ((100 : ℚ), (200 : ℚ)) ≠ ((300 : ℚ), (400 : ℚ)) := by
  refine ⟨rfl, rfl, by decide⟩

/-- C1 amended: a fresh plain-mode run over `N`-page metadata yields exactly `N`
output pages, but every output page is sized by page 1's declared viewport
(`metadata[0]`), which equals each page's own viewport only when all entries agree. -/
theorem c1_plain_pages_sized_by_first_viewport (m0 : PageMeta) (mrest : List PageMeta)
    (fetch : String → Option Bytes) (ocr : Bytes → Option OcrPage)
    (st : DownloaderState) (fileEx : Bool)
    (hst : st.images_urls = []) (hf : ∀ u, (fetch u).isSome) :
    ∃ pages : List FpdfPage,
      (run false (some (some (m0 :: mrest))) fetch ocr st fileEx).result
        = .ok (.plain pages) ∧
      pages.length = (m0 :: mrest).length ∧
      ∀ k, k < pages.length →
        pages[k]?.map (fun p => (p.width, p.height))
          = some (m0.viewport.width, m0.viewport.height) := by
  rcases run_plain_fresh_ok m0 mrest fetch ocr st fileEx hst hf with
    ⟨pages, hres, hlen, hspec⟩
  refine ⟨pages, hres, hlen, ?_⟩
  intro k hk
  have hkm : k < (m0 :: mrest).length := by omega
  have hmi : (m0 :: mrest)[k]? = some (m0 :: mrest)[k] := List.getElem?_eq_getElem hkm
  have := hspec k hkm _ hmi
  rcases hpg : pages[k]? with _ | pg
  · rw [hpg] at this
    exact Option.noConfusion this
  · rw [hpg] at this
    simp only [Option.map_some', Option.some.injEq, Prod.mk.injEq] at this
    obtain ⟨hw, hh, -⟩ := this
    simp [hpg, hw, hh]

/-- C1 amended witness: the two-viewport metadata instantiated concretely — 2 output
pages, both sized `(100, 200)`. -/
theorem c1_plain_pages_sized_by_first_viewport_witness :
    ∃ pages : List FpdfPage,
      (run false (some (some mdTwoViewports)) (fun _ => some [0]) (fun _ => none)
          ⟨"abc123XYZ", "png", 1800, "T", []⟩ false).result = .ok (.plain pages) ∧
      pages.length = mdTwoViewports.length ∧
      ∀ k, k < pages.length →
        pages[k]?.map (fun p => (p.width, p.height)) = some (100, 200) :=
  c1_plain_pages_sized_by_first_viewport ⟨⟨100, 200⟩, []⟩ [⟨⟨300, 400⟩, []⟩]
    (fun _ => some [0]) (fun _ => none) ⟨"abc123XYZ", "png", 1800, "T", []⟩ false
    rfl (fun _ => rfl)

/-- C3: in a fresh plain-mode run, every link `{left, top, width, height, url}` of
page `i`'s metadata is placed on output page `i` at origin `(left, H − top)` with
size `(width, height)`, where `H` is that output page's height (the viewport height
the document was sized with, read from `metadata[0]`). -/
theorem c3_plain_links_flipped (m0 : PageMeta) (mrest : List PageMeta) (i : Nat)
    (mi : PageMeta) (fetch : String → Option Bytes) (ocr : Bytes → Option OcrPage)
    (st : DownloaderState) (fileEx : Bool)
    (hst : st.images_urls = []) (hf : ∀ u, (fetch u).isSome)
    (hmi : (m0 :: mrest)[i]? = some mi) :
    ∃ (pages : List FpdfPage) (pg : FpdfPage),
      (run false (some (some (m0 :: mrest))) fetch ocr st fileEx).result
        = .ok (.plain pages) ∧
      pages[i]? = some pg ∧
      pg.height = m0.viewport.height ∧
      pg.links = mi.links.map
        (fun l => ⟨l.left, pg.height - l.top, l.width, l.height, l.url⟩) := by
  rcases run_plain_fresh_ok m0 mrest fetch ocr st fileEx hst hf with
    ⟨pages, hres, hlen, hspec⟩
  have hi : i < (m0 :: mrest).length := by
    by_contra hcon
    rw [List.getElem?_eq_none (by omega)] at hmi
    exact Option.noConfusion hmi
  have := hspec i hi mi hmi
  rcases hpg : pages[i]? with _ | pg
  · rw [hpg] at this
    exact Option.noConfusion this
  · rw [hpg] at this
    simp only [Option.map_some', Option.some.injEq, Prod.mk.injEq] at this
    obtain ⟨hw, hh, hl⟩ := this
    refine ⟨pages, pg, hres, hpg, hh, ?_⟩
    rw [hl, hh]
    rfl

/-- One-page metadata with one link, for the C3 witness (spec example: viewport
height 800, link `{left: 10, top: 20, width: 100, height: 50}`). -/
def mdLinkExample : List PageMeta := [⟨⟨600, 800⟩, [⟨10, 20, 100, 50, "u"⟩]⟩]

/-- C3 witness: the spec's example — on a page of viewport height 800, the link with
`top = 20` is placed with vertical origin `800 − 20 = 780`. -/
theorem c3_plain_links_flipped_witness :
    ∃ (pages : List FpdfPage) (pg : FpdfPage),
      (run false (some (some mdLinkExample)) (fun _ => some [0]) (fun _ => none)
          ⟨"abc123XYZ", "png", 1800, "T", []⟩ false).result = .ok (.plain pages) ∧
      pages[0]? = some pg ∧
      pg.height = 800 ∧
      pg.links = [⟨10, 780, 100, 50, "u"⟩] := by
  obtain ⟨pages, pg, hres, hpg, hh, hl⟩ :=
    c3_plain_links_flipped ⟨⟨600, 800⟩, [⟨10, 20, 100, 50, "u"⟩]⟩ [] 0
      ⟨⟨600, 800⟩, [⟨10, 20, 100, 50, "u"⟩]⟩ (fun _ => some [0]) (fun _ => none)
      ⟨"abc123XYZ", "png", 1800, "T", []⟩ false rfl (fun _ => rfl) rfl
  refine ⟨pages, pg, hres, hpg, hh, ?_⟩
  rw [hl, hh]
  norm_num [List.map_cons, List.map_nil, PlacedLink.mk.injEq]

/-- One-page metadata for the C7 evidence run. -/
def mdOnePage : List PageMeta := [⟨⟨500, 700⟩, []⟩]

/-- C7 evidence: a searchable run whose OCR call fails on the (successfully fetched
and persisted) raster aborts, and `/files/file.png` is LEFT on disk — the single
`os.remove` after the loop never runs on the error path, so there is no scoped
acquire/use/release cleanup. -/
theorem c7_transient_file_left_on_ocr_failure :
    (run true (some (some mdOnePage)) (fun _ => some [1]) (fun _ => none)
        ⟨"abc123XYZ", "png", 1800, "T", []⟩ false).result
      = .error .textExtractionFailure ∧
    (run true (some (some mdOnePage)) (fun _ => some [1]) (fun _ => none)
        ⟨"abc123XYZ", "png", 1800, "T", []⟩ false).fileOnDisk = true := by
  exact ⟨rfl, rfl⟩

/-- C8: when the metadata body is not well-formed JSON (`metaResp = none`), or is
JSON without a `pages` field (`metaResp = some none` — which is what an HTTP 500
error body amounts to; the status code itself is never inspected), the run aborts
with the corresponding metadata failure, no image fetch is ever attempted, and no
buffer is produced. -/
theorem c8_metadata_failure_before_image_fetch (searchable : Bool)
    (metaResp : Option (Option (List PageMeta))) (fetch : String → Option Bytes)
    (ocr : Bytes → Option OcrPage) (st : DownloaderState) (fileEx : Bool)
    (h : metaResp = none ∨ metaResp = some none) :
    ((run searchable metaResp fetch ocr st fileEx).result = .error .jsonDecodeError ∨
      (run searchable metaResp fetch ocr st fileEx).result = .error .typeError) ∧
    (run searchable metaResp fetch ocr st fileEx).imageFetches = 0 := by
  rcases h with h | h
  · subst h
    exact ⟨Or.inl rfl, rfl⟩
  · subst h
    exact ⟨Or.inr rfl, rfl⟩

/-- C8 witness: a malformed metadata body on a searchable run with an always-ready
image collaborator — still zero image fetches. -/
theorem c8_metadata_failure_before_image_fetch_witness :
    ((run true none (fun _ => some [1]) (fun _ => none)
        ⟨"abc123XYZ", "png", 1800, "T", []⟩ false).result = .error .jsonDecodeError ∨
      (run true none (fun _ => some [1]) (fun _ => none)
        ⟨"abc123XYZ", "png", 1800, "T", []⟩ false).result = .error .typeError) ∧
    (run true none (fun _ => some [1]) (fun _ => none)
        ⟨"abc123XYZ", "png", 1800, "T", []⟩ false).imageFetches = 0 :=
  c8_metadata_failure_before_image_fetch true none (fun _ => some [1]) (fun _ => none)
    ⟨"abc123XYZ", "png", 1800, "T", []⟩ false (Or.inl rfl)

/-- C9: two runs from freshly-constructed instances with identical identifier, render
parameters and cache token, against the same collaborator responses, return identical
results — in particular identical page counts and identical annotation placements. -/
theorem c9_fresh_runs_agree (flag : Bool) (metaResp : Option (Option (List PageMeta)))
    (fetch : String → Option Bytes) (ocr : Bytes → Option OcrPage) (fileEx : Bool)
    (st1 st2 : DownloaderState)
    (h1 : st1.resume_id = st2.resume_id) (h2 : st1.extension = st2.extension)
    (h3 : st1.image_size = st2.image_size) (h4 : st1.cache_date = st2.cache_date)
    (h5 : st1.images_urls = []) (h6 : st2.images_urls = []) :
    (run flag metaResp fetch ocr st1 fileEx).result
      = (run flag metaResp fetch ocr st2 fileEx).result ∧
    pageCount (run flag metaResp fetch ocr st1 fileEx).result
      = pageCount (run flag metaResp fetch ocr st2 fileEx).result := by
  have hst : st1 = st2 := by
    cases st1
    cases st2
    simp_all
  rw [hst]
  exact ⟨rfl, rfl⟩

/-- C9 witness: two separately-written fresh states with the same configuration. -/
theorem c9_fresh_runs_agree_witness :
    (run false (some (some mdOnePage)) (fun _ => some [1]) (fun _ => none)
        ⟨"abc123XYZ", "png", 1800, "T", []⟩ false).result
      = (run false (some (some mdOnePage)) (fun _ => some [1]) (fun _ => none)
        ⟨"abc123XYZ", "png", 1800, "T", []⟩ false).result ∧
    pageCount (run false (some (some mdOnePage)) (fun _ => some [1]) (fun _ => none)
        ⟨"abc123XYZ", "png", 1800, "T", []⟩ false).result
      = pageCount (run false (some (some mdOnePage)) (fun _ => some [1]) (fun _ => none)
        ⟨"abc123XYZ", "png", 1800, "T", []⟩ false).result :=
  c9_fresh_runs_agree false (some (some mdOnePage)) (fun _ => some [1]) (fun _ => none)
    false ⟨"abc123XYZ", "png", 1800, "T", []⟩ ⟨"abc123XYZ", "png", 1800, "T", []⟩
    rfl rfl rfl rfl rfl rfl

theorem getElem?_append_singleton_length {α : Type} (ps : List α) (p : α) :
    (ps ++ [p])[ps.length]? = some p := by
  induction ps with
  | nil => rfl
  | cons x xs ih => simpa using ih

theorem set_append_singleton_length {α : Type} (ps : List α) (p q : α) :
    (ps ++ [p]).set ps.length q = ps ++ [q] := by
  induction ps with
  | nil => rfl
  | cons x xs ih =>
    simp only [List.cons_append, List.length_cons, List.set_cons_succ]
    rw [ih]

/-- `add_annotation(page_number = i, ...)` always targets the page that was just
appended: attaching to the last page of the writer appends to its region list. -/
theorem addLinkAt_last (ps : List WriterPage) (w h : ℚ) (acc : List Annot) (a : Annot) :
    addLinkAt (ps ++ [⟨w, h, acc⟩]) ps.length a = ps ++ [⟨w, h, acc ++ [a]⟩] := by
  unfold addLinkAt
  rw [getElem?_append_singleton_length]
  exact set_append_singleton_length ps _ _

/-- Folding one metadata link list onto the writer's last page appends the built
regions in order. -/
theorem addLinksFor_last (links : List Link) :
    ∀ (ps : List WriterPage) (w h : ℚ) (acc : List Annot),
      addLinksFor (ps ++ [⟨w, h, acc⟩]) ps.length links
        = ps ++ [⟨w, h, acc ++ links.map annotOfLink⟩] := by
  induction links with
  | nil =>
    intro ps w h acc
    simp [addLinksFor]
  | cons l rest ih =>
    intro ps w h acc
    show addLinksFor (addLinkAt (ps ++ [⟨w, h, acc⟩]) ps.length (annotOfLink l))
        ps.length rest = _
    rw [addLinkAt_last]
    rw [ih ps w h (acc ++ [annotOfLink l])]
    simp

/-- Success shape of the `_generate_pdf_searchable` loop: with a total fetcher and an
OCR collaborator always returning a page of nonzero dimensions, and enough metadata
entries, the loop appends one page per url, attaching to writer page `i` exactly the
regions of metadata entry `i`, and leaves the transient file on disk whenever at
least one page was processed. -/
theorem searchableAux_ok (fetch : String → Option Bytes) (ocr : Bytes → Option OcrPage)
    (metadata : List PageMeta) (tw th : ℚ)
    (hf : ∀ u, (fetch u).isSome)
    (hocr : ∀ b, ∃ p : OcrPage, ocr b = some p ∧ p.width ≠ 0 ∧ p.height ≠ 0) :
    ∀ (urls : List String) (i : Nat) (fileEx : Bool) (acc : List WriterPage),
      acc.length = i → i + urls.length ≤ metadata.length →
      ∃ newPages : List WriterPage,
        searchableAux fetch ocr metadata tw th urls i fileEx acc
          = ⟨.ok (acc ++ newPages), urls.length, if urls.isEmpty then fileEx else true⟩ ∧
        newPages.length = urls.length ∧
        ∀ k, k < urls.length → ∀ mi, metadata[i + k]? = some mi →
          newPages[k]?.map (fun p => p.annots) = some (mi.links.map annotOfLink) := by
  intro urls
  induction urls with
  | nil =>
    intro i fileEx acc hacc _
    exact ⟨[], by simp [searchableAux], rfl, fun k hk => absurd hk (Nat.not_lt_zero k)⟩
  | cons u rest ih =>
    intro i fileEx acc hacc hlen
    rcases Option.isSome_iff_exists.1 (hf u) with ⟨img, himg⟩
    rcases hocr img with ⟨p, hp, hpw, hph⟩
    have hi : i < metadata.length := by
      simp only [List.length_cons] at hlen
      omega
    have hmi : metadata[i]? = some metadata[i] := List.getElem?_eq_getElem hi
    have hnz : ¬(p.height = 0 ∨ p.width = 0) := not_or.mpr ⟨hph, hpw⟩
    have hpages' : addLinksFor
        (acc ++ [⟨p.width * scale_factor tw th p.width p.height,
                  p.height * scale_factor tw th p.width p.height, []⟩]) i
        metadata[i].links
        = acc ++ [⟨p.width * scale_factor tw th p.width p.height,
            p.height * scale_factor tw th p.width p.height,
            metadata[i].links.map annotOfLink⟩] := by
      have := addLinksFor_last metadata[i].links acc
        (p.width * scale_factor tw th p.width p.height)
        (p.height * scale_factor tw th p.width p.height) []
      rw [hacc] at this
      simpa using this
    rcases ih (i + 1) true
        (acc ++ [⟨p.width * scale_factor tw th p.width p.height,
            p.height * scale_factor tw th p.width p.height,
            metadata[i].links.map annotOfLink⟩])
        (by simp [hacc]) (by simp only [List.length_cons] at hlen ⊢; omega) with
      ⟨newTail, htail, htlen, htspec⟩
    refine ⟨⟨p.width * scale_factor tw th p.width p.height,
        p.height * scale_factor tw th p.width p.height,
        metadata[i].links.map annotOfLink⟩ :: newTail, ?_, ?_, ?_⟩
    · simp only [searchableAux, himg, hp, if_neg hnz, hmi, hpages', htail]
      simp [ite_self]
    · simp [htlen]
    · intro k hk mi hmi'
      cases k with
      | zero =>
        rw [Nat.add_zero] at hmi'
        rw [hmi] at hmi'
        cases hmi'
        simp
      | succ k' =>
        have harith : i + (k' + 1) = (i + 1) + k' := by omega
        rw [harith] at hmi'
        have := htspec k' (by simp only [List.length_cons] at hk; omega) mi hmi'
        simpa using this

/-- Run-level success shape of a fresh searchable run: one writer page per metadata
entry, writer page `i` carrying exactly the regions built from metadata entry `i`'s
links. -/
theorem run_searchable_fresh_ok (m0 : PageMeta) (mrest : List PageMeta)
    (fetch : String → Option Bytes) (ocr : Bytes → Option OcrPage)
    (st : DownloaderState) (fileEx : Bool)
    (hst : st.images_urls = []) (hf : ∀ u, (fetch u).isSome)
    (hocr : ∀ b, ∃ p : OcrPage, ocr b = some p ∧ p.width ≠ 0 ∧ p.height ≠ 0) :
    ∃ pages : List WriterPage,
      (run true (some (some (m0 :: mrest))) fetch ocr st fileEx).result
        = .ok (.searchable pages) ∧
      pages.length = (m0 :: mrest).length ∧
      ∀ k, k < (m0 :: mrest).length → ∀ mi, (m0 :: mrest)[k]? = some mi →
        pages[k]?.map (fun p => p.annots) = some (mi.links.map annotOfLink) := by
  have hurls : (formatImagesUrls st (m0 :: mrest)).images_urls.length
      = (m0 :: mrest).length := by
    rw [formatImagesUrls_length, hst]
    simp
  have hne : (formatImagesUrls st (m0 :: mrest)).images_urls.isEmpty = false := by
    cases hu : (formatImagesUrls st (m0 :: mrest)).images_urls with
    | nil =>
      rw [hu] at hurls
      simp at hurls
    | cons a as => rfl
  rcases searchableAux_ok fetch ocr (m0 :: mrest) m0.viewport.width m0.viewport.height
      hf hocr (formatImagesUrls st (m0 :: mrest)).images_urls 0 fileEx [] rfl
      (by omega) with ⟨pages, haux, hlen, hspec⟩
  rw [hne] at haux
  have hgen : generatePdfSearchable fetch ocr (m0 :: mrest)
      (formatImagesUrls st (m0 :: mrest)).images_urls fileEx
      = ⟨.ok pages, (formatImagesUrls st (m0 :: mrest)).images_urls.length, false⟩ := by
    simp only [generatePdfSearchable, haux]
    simp
  refine ⟨pages, ?_, by rw [hlen, hurls], ?_⟩
  · simp [run, hgen]
  · intro k hk mi hmi
    exact hspec k (by omega) mi (by simpa using hmi)

/-- C4: in a fresh searchable run, every link `{left, top, width, height, url}` of
page `i`'s own metadata produces on output page `i` the region
`(left, top, left + width, top + height)` — taken directly from the metadata, with no
vertical flip (unlike plain mode). -/
theorem c4_searchable_links_unflipped (m0 : PageMeta) (mrest : List PageMeta) (i : Nat)
    (mi : PageMeta) (fetch : String → Option Bytes) (ocr : Bytes → Option OcrPage)
    (st : DownloaderState) (fileEx : Bool)
    (hst : st.images_urls = []) (hf : ∀ u, (fetch u).isSome)
    (hocr : ∀ b, ∃ p : OcrPage, ocr b = some p ∧ p.width ≠ 0 ∧ p.height ≠ 0)
    (hmi : (m0 :: mrest)[i]? = some mi) :
    ∃ (pages : List WriterPage) (pg : WriterPage),
      (run true (some (some (m0 :: mrest))) fetch ocr st fileEx).result
        = .ok (.searchable pages) ∧
      pages[i]? = some pg ∧
      pg.annots = mi.links.map
        (fun l => ⟨l.left, l.top, l.left + l.width, l.top + l.height, l.url⟩) := by
  rcases run_searchable_fresh_ok m0 mrest fetch ocr st fileEx hst hf hocr with
    ⟨pages, hres, hlen, hspec⟩
  have hi : i < (m0 :: mrest).length := by
    by_contra hcon
    rw [List.getElem?_eq_none (by omega)] at hmi
    exact Option.noConfusion hmi
  have := hspec i hi mi hmi
  rcases hpg : pages[i]? with _ | pg
  · rw [hpg] at this
    exact Option.noConfusion this
  · rw [hpg] at this
    simp only [Option.map_some', Option.some.injEq] at this
    exact ⟨pages, pg, hres, hpg, this⟩

/-- One-page metadata with one link, for the C4 witness. -/
def mdSearchLink : List PageMeta := [⟨⟨500, 700⟩, [⟨10, 20, 100, 50, "u"⟩]⟩]

/-- C4 witness: link `{left: 10, top: 20, width: 100, height: 50}` yields the region
`(10, 20, 110, 70)` on the matching output page — `top` is used as-is. -/
theorem c4_searchable_links_unflipped_witness :
    ∃ (pages : List WriterPage) (pg : WriterPage),
      (run true (some (some mdSearchLink)) (fun _ => some [1])
          (fun _ => some ⟨612, 792⟩) ⟨"abc123XYZ", "png", 1800, "T", []⟩ false).result
        = .ok (.searchable pages) ∧
      pages[0]? = some pg ∧
      pg.annots = [⟨10, 20, 110, 70, "u"⟩] := by
  obtain ⟨pages, pg, hres, hpg, hl⟩ :=
    c4_searchable_links_unflipped ⟨⟨500, 700⟩, [⟨10, 20, 100, 50, "u"⟩]⟩ [] 0
      ⟨⟨500, 700⟩, [⟨10, 20, 100, 50, "u"⟩]⟩ (fun _ => some [1])
      (fun _ => some ⟨612, 792⟩) ⟨"abc123XYZ", "png", 1800, "T", []⟩ false
      rfl (fun _ => rfl) (fun b => ⟨⟨612, 792⟩, rfl, by norm_num, by norm_num⟩) rfl
  refine ⟨pages, pg, hres, hpg, ?_⟩
  rw [hl]
  norm_num [List.map_cons, List.map_nil, Annot.mk.injEq]

/-- C10 counterexample: with 1-page metadata, the first `run` on a fresh instance
returns a 1-page document, and the second `run` on the SAME instance leaves
`images_urls` with `2·N = 2` entries — but instead of returning a 2-page document it
raises IndexError (`self.metadata[1]` against the re-fetched 1-entry metadata). -/
theorem c10_second_run_index_error :
    (run false (some (some mdOnePage)) (fun _ => some [1]) (fun _ => none)
        ⟨"abc123XYZ", "png", 1800, "T", []⟩ false).result
      = .ok (.plain [⟨500, 700, [1], []⟩]) ∧
    (run false (some (some mdOnePage)) (fun _ => some [1]) (fun _ => none)
        (run false (some (some mdOnePage)) (fun _ => some [1]) (fun _ => none)
          ⟨"abc123XYZ", "png", 1800, "T", []⟩ false).state
        (run false (some (some mdOnePage)) (fun _ => some [1]) (fun _ => none)
          ⟨"abc123XYZ", "png", 1800, "T", []⟩ false).fileOnDisk).state.images_urls.length
      = 2 ∧
    (run false (some (some mdOnePage)) (fun _ => some [1]) (fun _ => none)
        (run false (some (some mdOnePage)) (fun _ => some [1]) (fun _ => none)
          ⟨"abc123XYZ", "png", 1800, "T", []⟩ false).state
        (run false (some (some mdOnePage)) (fun _ => some [1]) (fun _ => none)
          ⟨"abc123XYZ", "png", 1800, "T", []⟩ false).fileOnDisk).result
      = .error .indexError := by
  refine ⟨rfl, rfl, rfl⟩

/-- C10 amended: each `run` call appends `len(metadata)` urls to the instance's
`images_urls` without clearing it, so a fresh run returns exactly `N` pages and
leaves `N` urls; a second run on the same instance grows the list to `2·N` urls, but
then fails with IndexError instead of returning a `2·N`-page document. -/
theorem c10_images_urls_accumulate (m0 : PageMeta) (mrest : List PageMeta)
    (fetch : String → Option Bytes) (ocr : Bytes → Option OcrPage)
    (st : DownloaderState) (fileEx : Bool)
    (hst : st.images_urls = []) (hf : ∀ u, (fetch u).isSome) :
    (∃ pages : List FpdfPage,
      (run false (some (some (m0 :: mrest))) fetch ocr st fileEx).result
        = .ok (.plain pages) ∧
      pages.length = (m0 :: mrest).length) ∧
    (run false (some (some (m0 :: mrest))) fetch ocr st fileEx).state.images_urls.length
      = (m0 :: mrest).length ∧
    (run false (some (some (m0 :: mrest))) fetch ocr
        (run false (some (some (m0 :: mrest))) fetch ocr st fileEx).state
        (run false (some (some (m0 :: mrest))) fetch ocr st fileEx).fileOnDisk).result
      = .error .indexError ∧
    (run false (some (some (m0 :: mrest))) fetch ocr
        (run false (some (some (m0 :: mrest))) fetch ocr st fileEx).state
        (run false (some (some (m0 :: mrest))) fetch ocr st fileEx).fileOnDisk).state.images_urls.length
      = 2 * (m0 :: mrest).length := by
  have hstate1 : (run false (some (some (m0 :: mrest))) fetch ocr st fileEx).state
      = formatImagesUrls st (m0 :: mrest) := run_state false (m0 :: mrest) fetch ocr st fileEx
  have hlen1 : (run false (some (some (m0 :: mrest))) fetch ocr st fileEx).state.images_urls.length
      = (m0 :: mrest).length := by
    rw [hstate1, formatImagesUrls_length, hst]
    simp
  refine ⟨?_, hlen1, ?_, ?_⟩
  · rcases run_plain_fresh_ok m0 mrest fetch ocr st fileEx hst hf with ⟨pages, hres, hlen, -⟩
    exact ⟨pages, hres, hlen⟩
  · generalize hst1 : (run false (some (some (m0 :: mrest))) fetch ocr st fileEx).state
      = st1 at hlen1 ⊢
    generalize (run false (some (some (m0 :: mrest))) fetch ocr st fileEx).fileOnDisk
      = fx1
    have hurls2 : (formatImagesUrls st1 (m0 :: mrest)).images_urls.length
        = 2 * (m0 :: mrest).length := by
      rw [formatImagesUrls_length, hlen1]
      omega
    have hoob := generatePdfAux_oob fetch (m0 :: mrest) m0.viewport.width
      m0.viewport.height hf
      (formatImagesUrls st1 (m0 :: mrest)).images_urls 0 (by omega)
      (by rw [hurls2]; simp only [List.length_cons]; omega)
    cases hgen : generatePdfAux fetch (m0 :: mrest) m0.viewport.width m0.viewport.height
        (formatImagesUrls st1 (m0 :: mrest)).images_urls 0 with
    | mk res n =>
      rw [hgen] at hoob
      simp only at hoob
      subst hoob
      have hgen' : generatePdf fetch (m0 :: mrest)
          (formatImagesUrls st1 (m0 :: mrest)).images_urls = (.error .indexError, n) := by
        simpa [generatePdf] using hgen
      simp [run, hgen']
  · rw [run_state, formatImagesUrls_length, hlen1]
    omega

/-- C10 amended witness: the 1-page scenario instantiated through the general
theorem — 1 page and 1 url after the first run, IndexError and 2 urls after the
second. -/
theorem c10_images_urls_accumulate_witness :
    (run false (some (some mdOnePage)) (fun _ => some [2]) (fun _ => none)
        (run false (some (some mdOnePage)) (fun _ => some [2]) (fun _ => none)
          ⟨"zzz999AAA", "png", 1800, "T2", []⟩ false).state
        (run false (some (some mdOnePage)) (fun _ => some [2]) (fun _ => none)
          ⟨"zzz999AAA", "png", 1800, "T2", []⟩ false).fileOnDisk).result
      = .error .indexError ∧
    (run false (some (some mdOnePage)) (fun _ => some [2]) (fun _ => none)
        (run false (some (some mdOnePage)) (fun _ => some [2]) (fun _ => none)
          ⟨"zzz999AAA", "png", 1800, "T2", []⟩ false).state
        (run false (some (some mdOnePage)) (fun _ => some [2]) (fun _ => none)
          ⟨"zzz999AAA", "png", 1800, "T2", []⟩ false).fileOnDisk).state.images_urls.length
      = 2 * mdOnePage.length :=
  ⟨(c10_images_urls_accumulate ⟨⟨500, 700⟩, []⟩ [] (fun _ => some [2]) (fun _ => none)
      ⟨"zzz999AAA", "png", 1800, "T2", []⟩ false rfl (fun _ => rfl)).2.2.1,
   (c10_images_urls_accumulate ⟨⟨500, 700⟩, []⟩ [] (fun _ => some [2]) (fun _ => none)
      ⟨"zzz999AAA", "png", 1800, "T2", []⟩ false rfl (fun _ => rfl)).2.2.2⟩
